import Mathlib

/-!
Verification of the todobi two-way synchronization and conflict-resolution
subsystem (`src/main.go` of WillyV3/todobi).

The Go source is shallowly embedded here:

* `time.Time` values are modelled as `Int` instants (`a.After b` is `b < a`,
  `a.Equal b` is `a = b`, the zero time is `0`).
* Go `map[string]T` values are modelled as association lists built
  exclusively through `mapInsert`, which mirrors the insert-or-replace
  semantics of Go map assignment; iterating a map corresponds to reading
  the list in order.  All synchronization claims are order-insensitive
  (membership / set statements), so the unspecified Go iteration order is
  irrelevant to the theorems below.
* The Bubble Tea `model` struct is restricted to the fields touched by the
  synchronization subsystem; widget state (lists, text inputs, spinner,
  window size) is omitted.  `setStatus` is modelled as setting `statusMsg`
  (the `statusUntil` deadline is dropped).  Persistence (`saveConfig`)
  appends the written document to a `savedLog` ghost field.
* The external `gh`/git transport of `pullFromGitHubCmd` is modelled by a
  `PullEnv` record carrying the outcome of each fallible step, in the exact
  order the Go function performs them.
-/

namespace Todobi

/-- `Priority` from main.go: an integer enum (P0Critical = 0 … P3Low = 3). -/
abbrev Priority := Int

/-- `Task` struct from main.go (timestamps as `Int` instants). -/
structure Task where
  id : String
  content : String
  categoryID : String
  priority : Priority
  done : Bool
  createdAt : Int
  completedAt : Int
  notes : String
deriving Repr, DecidableEq

/-- `Category` struct from main.go. -/
structure Category where
  id : String
  name : String
deriving Repr, DecidableEq

/-- `Config` struct from main.go: the complete synchronizable document. -/
structure Config where
  categories : List Category
  tasks : List Task
  lastUpdate : Int
  version : String
  gitHubSetupComplete : Bool
deriving Repr, DecidableEq

/-- `time.Time.After`: strictly later. -/
def timeAfter (a b : Int) : Bool := decide (b < a)

/-- `time.Time.Equal`. -/
def timeEqual (a b : Int) : Bool := decide (a = b)

/-- Go map assignment `m[k] = v`: replace the binding of `k` in place if it
exists, otherwise add a new binding. -/
def mapInsert {α : Type} (k : String) (v : α) : List (String × α) → List (String × α)
  | [] => [(k, v)]
  | (k', v') :: rest =>
      if k' = k then (k, v) :: rest else (k', v') :: mapInsert k v rest

/-- Go map read `m[k]` (with its ok flag folded into `Option`). -/
def mapLookup {α : Type} (k : String) : List (String × α) → Option α
  | [] => none
  | (k', v) :: rest => if k' = k then some v else mapLookup k rest

/-- A `for _, v := range l { m[key(v)] = v }` loop over a Go map. -/
def buildMap {α : Type} (key : α → String) (l : List α)
    (acc : List (String × α)) : List (String × α) :=
  l.foldl (fun acc v => mapInsert (key v) v acc) acc

/-- The category-map phase of `mergeConfigs`: insert all local categories,
then all remote ones (so a remote category wins an ID collision). -/
def mergeCategoryMap (loc rem : List Category) : List (String × Category) :=
  buildMap Category.id rem (buildMap Category.id loc [])

/-- One step of the remote-task loop of `mergeConfigs`: a remote task
replaces an existing binding only when its `CreatedAt` is strictly later,
and is inserted outright when its ID is absent. -/
def mergeTaskStep (acc : List (String × Task)) (t : Task) : List (String × Task) :=
  match mapLookup t.id acc with
  | some existing =>
      if timeAfter t.createdAt existing.createdAt then mapInsert t.id t acc else acc
  | none => mapInsert t.id t acc

/-- The task-map phase of `mergeConfigs`. -/
def mergeTaskMap (loc rem : List Task) : List (String × Task) :=
  rem.foldl mergeTaskStep (buildMap Task.id loc [])

/-- `mergeConfigs` from main.go.  `now` stands for the `time.Now()` call that
stamps the merged document.  The merged `Config` literal sets only `Version`
and `LastUpdate`, so `GitHubSetupComplete` is the zero value `false`. -/
def mergeConfigs (now : Int) (loc rem : Config) : Config :=
  { version := loc.version
    lastUpdate := now
    gitHubSetupComplete := false
    categories := (mergeCategoryMap loc.categories rem.categories).map Prod.snd
    tasks := (mergeTaskMap loc.tasks rem.tasks).map Prod.snd }

example :
    (mergeConfigs 10
      { categories := [], tasks := [⟨"a", "x", "", 1, false, 1, 0, ""⟩],
        lastUpdate := 3, version := "1.3.0", gitHubSetupComplete := true }
      { categories := [], tasks := [⟨"a", "y", "", 1, false, 2, 0, ""⟩],
        lastUpdate := 2, version := "9", gitHubSetupComplete := true }).tasks
    = [⟨"a", "y", "", 1, false, 2, 0, ""⟩] := by decide

/-- `viewMode` enum from main.go. -/
inductive ViewMode where
  | listView
  | categoryFormView
  | taskFormView
  | completedView
  | deleteConfirmView
  | categoryListView
  | syncConfirmView
  | pullConfirmView
  | editTaskView
  | taskDetailView
  | firstRunView
deriving Repr, DecidableEq

/-- `firstRunStep` enum from main.go. -/
inductive FirstRunStep where
  | welcomeStep
  | hasRepoPromptStep
  | createRepoPromptStep
  | pullingStep
  | pushingStep
  | completeStep
deriving Repr, DecidableEq

/-- `pullResultMsg` from main.go.  In Go `remoteConfig` is a `*Config`
pointer that is non-nil exactly on the success return; `Option` models the
pointer. -/
structure PullResultMsg where
  success : Bool
  error : String
  remoteConfig : Option Config
  hasConflict : Bool
deriving Repr, DecidableEq

/-- `syncResultMsg` from main.go. -/
structure SyncResultMsg where
  success : Bool
  error : String
deriving Repr, DecidableEq

/-- The synchronization-relevant fields of the Bubble Tea `model` struct.
`savedLog` is a ghost field recording every document written to disk by
`saveConfig`, so "nothing persisted" is the statement that it is unchanged. -/
structure AppState where
  config : Config
  mode : ViewMode
  prevMode : ViewMode
  statusMsg : String
  configChanged : Bool
  syncInProgress : Bool
  pullInProgress : Bool
  remoteConfig : Option Config
  firstRunStep : FirstRunStep
  firstRunError : String
  savedLog : List Config
deriving Repr, DecidableEq

/-- `saveConfig` from main.go: stamps `LastUpdate` with `time.Now()` (the
`now` argument) and writes the document; the write is recorded in
`savedLog`. -/
def saveConfigStep (now : Int) (st : AppState) : AppState :=
  let cfg := { st.config with lastUpdate := now }
  { st with config := cfg, savedLog := st.savedLog ++ [cfg] }

/-- `model.saveConfigAndMarkChanged` from main.go. -/
def saveConfigAndMarkChanged (now : Int) (st : AppState) : AppState :=
  let st := saveConfigStep now st
  { st with configChanged := true }

/-- The conflict test of `pullFromGitHubCmd` (main.go lines 1112-1118):
`hasConflict` stays false unless local `LastUpdate` is `After` the remote
one, and is then the negated `Equal` test. -/
def detectConflict (localLast remoteLast : Int) : Bool :=
  if timeAfter localLast remoteLast then !(timeEqual localLast remoteLast) else false

/-- Outcome of each fallible external step of `pullFromGitHubCmd`, in the
order the Go function performs them: `gh --version`, `gh repo view`,
`MkdirAll`, `gh repo clone`, `ReadFile`, `json.Unmarshal`.  A `parseResult`
of `none` models an unmarshal error. -/
structure PullEnv where
  ghInstalled : Bool
  repoExists : Bool
  mkdirOk : Bool
  cloneOk : Bool
  cloneErrMsg : String
  readOk : Bool
  readErrMsg : String
  parseResult : Option Config
  parseErrMsg : String
deriving Repr, DecidableEq

/-- `pullFromGitHubCmd` from main.go: the message the background pull
command delivers, as a function of the local document snapshot and the
transport environment.  (Quote characters of the Go message literals are
omitted.) -/
def pullFromGitHubCmd (localConfig : Config) (env : PullEnv) : PullResultMsg :=
  if !env.ghInstalled then
    ⟨false, "gh CLI not installed. Install from https://cli.github.com", none, false⟩
  else if !env.repoExists then
    ⟨false, "Remote repo todobi-sync does not exist. Push to GitHub first with G", none, false⟩
  else if !env.mkdirOk then
    ⟨false, "Failed to create temp directory: mkdir failed", none, false⟩
  else if !env.cloneOk then
    ⟨false, "Error cloning repo: " ++ env.cloneErrMsg, none, false⟩
  else if !env.readOk then
    ⟨false, "Error reading remote config: " ++ env.readErrMsg, none, false⟩
  else
    match env.parseResult with
    | none => ⟨false, "Error parsing remote config: " ++ env.parseErrMsg, none, false⟩
    | some remoteConfig =>
        ⟨true, "", some remoteConfig,
          detectConflict localConfig.lastUpdate remoteConfig.lastUpdate⟩

/-- The `pullResultMsg` branch of `model.Update` (main.go lines 515-549).
`m.config = msg.remoteConfig` assigns the message pointer; both assignment
sites are in branches the producer only reaches with a non-nil pointer, and
`Option.getD` keeps the function total on the never-produced nil case. -/
def updatePullResult (msg : PullResultMsg) (st : AppState) : AppState :=
  let st := { st with pullInProgress := false }
  if st.mode = ViewMode.firstRunView then
    if msg.success then
      { st with config := msg.remoteConfig.getD st.config,
                firstRunStep := FirstRunStep.completeStep, firstRunError := "" }
    else
      { st with firstRunError := msg.error }
  else
    if msg.success then
      if msg.hasConflict then
        { st with remoteConfig := msg.remoteConfig,
                  statusMsg := "Conflict detected - choose merge strategy",
                  mode := ViewMode.pullConfirmView }
      else
        { st with config := msg.remoteConfig.getD st.config,
                  configChanged := false,
                  statusMsg := "Pulled from GitHub successfully!",
                  mode := st.prevMode }
    else
      { st with statusMsg := "Pull failed: " ++ msg.error, mode := st.prevMode }

/-- The `syncResultMsg` branch of `model.Update` (main.go lines 493-513). -/
def updateSyncResult (msg : SyncResultMsg) (st : AppState) : AppState :=
  let st := { st with syncInProgress := false }
  if st.mode = ViewMode.firstRunView then
    if msg.success then
      { st with firstRunStep := FirstRunStep.completeStep, firstRunError := "" }
    else
      { st with firstRunError := msg.error }
  else
    if msg.success then
      { st with statusMsg := "Synced to GitHub successfully!",
                configChanged := false, mode := st.prevMode }
    else
      { st with statusMsg := "Sync failed: " ++ msg.error, mode := st.prevMode }

/-- `model.handlePullConfirm` from main.go (lines 862-900): the four
conflict-resolution transitions.  `nowMerge` is the `time.Now()` inside
`mergeConfigs`, `nowSave` the one inside the subsequent `saveConfig`. -/
def handlePullConfirm (key : String) (nowMerge nowSave : Int) (st : AppState) : AppState :=
  if key = "l" ∨ key = "L" then
    { st with remoteConfig := none, mode := st.prevMode, statusMsg := "Kept local version" }
  else if key = "r" ∨ key = "R" then
    let st :=
      match st.remoteConfig with
      | some rc =>
          let st := { st with config := rc }
          let st := saveConfigAndMarkChanged nowSave st
          { st with remoteConfig := none, configChanged := false,
                    statusMsg := "Applied remote version" }
      | none => st
    { st with mode := st.prevMode }
  else if key = "m" ∨ key = "M" then
    let st :=
      match st.remoteConfig with
      | some rc =>
          let st := { st with config := mergeConfigs nowMerge st.config rc }
          let st := saveConfigAndMarkChanged nowSave st
          { st with remoteConfig := none, configChanged := false,
                    statusMsg := "Merged local and remote" }
      | none => st
    { st with mode := st.prevMode }
  else if key = "esc" then
    { st with remoteConfig := none, mode := st.prevMode }
  else st

/-- The transport commands a key press can launch (`tea.Cmd` values that
spawn external work; all other commands are UI-only and not modelled). -/
inductive TransportCmd where
  | startPull
  | startSync
deriving Repr, DecidableEq

/-- `model.handleSyncConfirm` from main.go (lines 848-860): `y` launches
`syncToGitHubCmd` unconditionally — there is no `syncInProgress` guard. -/
def handleSyncConfirm (key : String) (st : AppState) : AppState × List TransportCmd :=
  if key = "y" ∨ key = "Y" then
    ({ st with syncInProgress := true, statusMsg := "Syncing to GitHub..." },
     [TransportCmd.startSync])
  else if key = "n" ∨ key = "N" ∨ key = "esc" then
    ({ st with mode := st.prevMode }, [])
  else (st, [])

/-- The `G` and `g` cases of the main-view key switch of `model.Update`
(main.go lines 643-653).  `g` launches `pullFromGitHubCmd` unconditionally —
there is no `pullInProgress` guard.  The remaining main-view keys edit tasks
or switch views and never launch a transport command. -/
def mainViewSyncKey (key : String) (st : AppState) : AppState × List TransportCmd :=
  if key = "G" then
    ({ st with prevMode := st.mode, mode := ViewMode.syncConfirmView }, [])
  else if key = "g" then
    ({ st with prevMode := st.mode, pullInProgress := true,
               statusMsg := "Pulling from GitHub..." },
     [TransportCmd.startPull])
  else (st, [])

/-- The Go value kinds occurring in the `Task` struct fields, as seen by
`encoding/json`.  `timeStruct` is a `time.Time` (a struct kind). -/
inductive GoValue where
  | str (s : String)
  | int (n : Int)
  | bool (b : Bool)
  | timeStruct (t : Int)
deriving Repr, DecidableEq

/-- The `isEmptyValue` test of `encoding/json`: a value is empty for `omitempty`
purposes when it is false, 0, a nil pointer/interface, or an empty
array/slice/map/string.  A struct — `time.Time` included — is never empty,
whatever its contents. -/
def GoValue.isEmptyValue : GoValue → Bool
  | .str s => s = ""
  | .int n => n = 0
  | .bool b => !b
  | .timeStruct _ => false

/-- One struct field as `encoding/json` sees it: the key from the JSON tag
and whether the tag carries `omitempty`. -/
structure GoField where
  name : String
  value : GoValue
  omitempty : Bool
deriving Repr, DecidableEq

/-- The fields of the `Task` struct in declaration order, with the JSON tags
of main.go lines 69-78 (`completed_at` and `notes` carry `omitempty`). -/
def taskGoFields (t : Task) : List GoField :=
  [⟨"id", GoValue.str t.id, false⟩,
   ⟨"content", GoValue.str t.content, false⟩,
   ⟨"category_id", GoValue.str t.categoryID, false⟩,
   ⟨"priority", GoValue.int t.priority, false⟩,
   ⟨"done", GoValue.bool t.done, false⟩,
   ⟨"created_at", GoValue.timeStruct t.createdAt, false⟩,
   ⟨"completed_at", GoValue.timeStruct t.completedAt, true⟩,
   ⟨"notes", GoValue.str t.notes, true⟩]

/-- The JSON object keys `encoding/json` emits for a struct: every field
except those whose tag has `omitempty` and whose value is empty. -/
def marshalKeys (fields : List GoField) : List String :=
  (fields.filter (fun f => !(f.omitempty && f.value.isEmptyValue))).map GoField.name

/-- The keys of the JSON object `saveConfig`/`json.MarshalIndent` produces
for one task. -/
def taskMarshalKeys (t : Task) : List String := marshalKeys (taskGoFields t)

/-- Keys of an association-list map. -/
def mapKeys {α : Type} (m : List (String × α)) : List String := m.map Prod.fst

theorem mapLookup_insert_self {α : Type} (k : String) (v : α)
    (m : List (String × α)) : mapLookup k (mapInsert k v m) = some v := by
  induction m with
  | nil => simp [mapInsert, mapLookup]
  | cons p rest ih =>
      obtain ⟨k', v'⟩ := p
      by_cases h : k' = k
      · simp [mapInsert, h, mapLookup]
      · simp [mapInsert, h, mapLookup, ih]

theorem mapLookup_insert_ne {α : Type} {k k' : String} (v : α)
    (m : List (String × α)) (h : k' ≠ k) :
    mapLookup k' (mapInsert k v m) = mapLookup k' m := by
  induction m with
  | nil =>
      simp only [mapInsert, mapLookup]
      rw [if_neg (Ne.symm h)]
  | cons p rest ih =>
      obtain ⟨k0, v0⟩ := p
      by_cases h0 : k0 = k
      · subst h0
        simp [mapInsert, mapLookup, h, Ne.symm h]
      · simp [mapInsert, mapLookup, h0, ih]

theorem mapInsert_of_not_mem_keys {α : Type} {k : String} (v : α)
    {m : List (String × α)} (h : k ∉ mapKeys m) :
    mapInsert k v m = m ++ [(k, v)] := by
  induction m with
  | nil => simp [mapInsert]
  | cons p rest ih =>
      obtain ⟨k0, v0⟩ := p
      simp only [mapKeys, List.map_cons, List.mem_cons] at h
      push_neg at h
      simp [mapInsert, Ne.symm h.1, ih h.2]

theorem mapInsert_of_lookup_self {α : Type} {k : String} {v : α}
    {m : List (String × α)} (h : mapLookup k m = some v) :
    mapInsert k v m = m := by
  induction m with
  | nil => simp [mapLookup] at h
  | cons p rest ih =>
      obtain ⟨k0, v0⟩ := p
      by_cases h0 : k0 = k
      · subst h0
        simp [mapLookup] at h
        simp [mapInsert, h]
      · simp only [mapLookup, h0, if_neg h0] at h
        simp [mapInsert, h0, ih h]

theorem mapLookup_eq_none_of_not_mem_keys {α : Type} {k : String}
    {m : List (String × α)} (h : k ∉ mapKeys m) : mapLookup k m = none := by
  induction m with
  | nil => simp [mapLookup]
  | cons p rest ih =>
      obtain ⟨k0, v0⟩ := p
      simp only [mapKeys, List.map_cons, List.mem_cons] at h
      push_neg at h
      simp [mapLookup, Ne.symm h.1, ih h.2]

theorem mem_snd_of_mapLookup {α : Type} {k : String} {v : α}
    {m : List (String × α)} (h : mapLookup k m = some v) :
    v ∈ m.map Prod.snd := by
  induction m with
  | nil => simp [mapLookup] at h
  | cons p rest ih =>
      obtain ⟨k0, v0⟩ := p
      by_cases h0 : k0 = k
      · subst h0
        simp [mapLookup] at h
        simp [h]
      · simp only [mapLookup, if_neg h0] at h
        simp [ih h]

theorem mapKeys_insert_mem {α : Type} {k : String} (v : α)
    {m : List (String × α)} (h : k ∈ mapKeys m) :
    mapKeys (mapInsert k v m) = mapKeys m := by
  induction m with
  | nil => simp [mapKeys] at h
  | cons p rest ih =>
      obtain ⟨k0, v0⟩ := p
      by_cases h0 : k0 = k
      · simp [mapInsert, h0, mapKeys]
      · simp only [mapKeys, List.map_cons, List.mem_cons] at h
        rcases h with h | h
        · exact absurd h.symm h0
        · simp only [mapInsert, if_neg h0, mapKeys, List.map_cons] at ih ⊢
          rw [ih h]

theorem mapKeys_insert_not_mem {α : Type} {k : String} (v : α)
    {m : List (String × α)} (h : k ∉ mapKeys m) :
    mapKeys (mapInsert k v m) = mapKeys m ++ [k] := by
  rw [mapInsert_of_not_mem_keys v h]
  simp [mapKeys]

/-- Well-formedness of the Go-map model: keys are distinct and every
binding stores a value whose own ID equals its key.  Both invariants hold
for every map `mergeConfigs` constructs. -/
def MapWF {α : Type} (key : α → String) (m : List (String × α)) : Prop :=
  (mapKeys m).Nodup ∧ ∀ p ∈ m, key p.2 = p.1

theorem MapWF.nil {α : Type} (key : α → String) : MapWF key ([] : List (String × α)) := by
  constructor
  · simp [mapKeys]
  · intro p hp; simp at hp

theorem mapInsert_id_preserved {α : Type} {key : α → String}
    {m : List (String × α)} (hid : ∀ p ∈ m, key p.2 = p.1) (v : α) :
    ∀ p ∈ mapInsert (key v) v m, key p.2 = p.1 := by
  induction m with
  | nil =>
      intro p hp
      simp [mapInsert] at hp
      simp [hp]
  | cons q rest ih =>
      intro p hp
      obtain ⟨k0, v0⟩ := q
      by_cases h0 : k0 = key v
      · simp only [mapInsert, if_pos h0, List.mem_cons] at hp
        rcases hp with hp | hp
        · simp [hp]
        · exact hid p (List.mem_cons_of_mem _ hp)
      · simp only [mapInsert, if_neg h0, List.mem_cons] at hp
        rcases hp with hp | hp
        · exact hid p (by simp [hp])
        · exact ih (fun q hq => hid q (List.mem_cons_of_mem _ hq)) p hp

theorem MapWF.insert {α : Type} {key : α → String} {m : List (String × α)}
    (hwf : MapWF key m) (v : α) : MapWF key (mapInsert (key v) v m) := by
  obtain ⟨hnd, hid⟩ := hwf
  constructor
  · by_cases hk : key v ∈ mapKeys m
    · rw [mapKeys_insert_mem v hk]
      exact hnd
    · rw [mapKeys_insert_not_mem v hk]
      rw [List.nodup_append]
      refine ⟨hnd, by simp, ?_⟩
      intro a ha hb
      simp at hb
      subst hb
      exact hk ha
  · exact mapInsert_id_preserved hid v

theorem mapLookup_of_mem_nodup {α : Type} {k : String} {v : α}
    {m : List (String × α)} (hnd : (mapKeys m).Nodup) (hmem : (k, v) ∈ m) :
    mapLookup k m = some v := by
  induction m with
  | nil => simp at hmem
  | cons p rest ih =>
      obtain ⟨k0, v0⟩ := p
      simp only [List.mem_cons] at hmem
      simp only [mapKeys, List.map_cons, List.nodup_cons] at hnd
      rcases hmem with h | h
      · injection h with h1 h2
        subst h1
        subst h2
        simp [mapLookup]
      · have hk : ¬k0 = k := by
          intro he
          subst he
          exact hnd.1 (List.mem_map.mpr ⟨(k0, v), h, rfl⟩)
        simp only [mapLookup, if_neg hk]
        exact ih hnd.2 h

theorem mem_snd_iff_mapLookup {α : Type} {key : α → String} {v : α}
    {m : List (String × α)} (hwf : MapWF key m) :
    v ∈ m.map Prod.snd ↔ mapLookup (key v) m = some v := by
  constructor
  · intro h
    obtain ⟨p, hp, hv⟩ := List.mem_map.mp h
    obtain ⟨k0, v0⟩ := p
    simp only at hv
    subst hv
    have hk : key v0 = k0 := hwf.2 (k0, v0) hp
    rw [hk]
    exact mapLookup_of_mem_nodup hwf.1 hp
  · exact mem_snd_of_mapLookup

theorem buildMap_cons {α : Type} (key : α → String) (w : α) (rest : List α)
    (acc : List (String × α)) :
    buildMap key (w :: rest) acc = buildMap key rest (mapInsert (key w) w acc) := rfl

theorem buildMap_lookup_not_mem {α : Type} {key : α → String} {k : String}
    {l : List α} (h : k ∉ l.map key) (acc : List (String × α)) :
    mapLookup k (buildMap key l acc) = mapLookup k acc := by
  induction l generalizing acc with
  | nil => rfl
  | cons w rest ih =>
      simp only [List.map_cons, List.mem_cons] at h
      push_neg at h
      rw [buildMap_cons, ih h.2, mapLookup_insert_ne _ _ h.1]

theorem buildMap_lookup_mem {α : Type} {key : α → String} {l : List α} {v : α}
    (hnd : (l.map key).Nodup) (hv : v ∈ l) (acc : List (String × α)) :
    mapLookup (key v) (buildMap key l acc) = some v := by
  induction l generalizing acc with
  | nil => simp at hv
  | cons w rest ih =>
      simp only [List.map_cons, List.nodup_cons] at hnd
      rcases List.mem_cons.mp hv with h | h
      · subst h
        rw [buildMap_cons, buildMap_lookup_not_mem hnd.1, mapLookup_insert_self]
      · rw [buildMap_cons]
        exact ih hnd.2 h _

theorem MapWF.buildMap {α : Type} {key : α → String} {l : List α}
    {acc : List (String × α)} (hwf : MapWF key acc) :
    MapWF key (buildMap key l acc) := by
  induction l generalizing acc with
  | nil => exact hwf
  | cons w rest ih => exact ih (hwf.insert w)

/-- The value the remote-task loop leaves bound at a colliding ID: the task
with the strictly later `CreatedAt`, the already-present one on a tie. -/
def mergeWinner (existing : Option Task) (t : Task) : Task :=
  match existing with
  | some e => if timeAfter t.createdAt e.createdAt then t else e
  | none => t

theorem mergeTaskStep_lookup_ne (acc : List (String × Task)) (t : Task)
    {k : String} (h : k ≠ t.id) :
    mapLookup k (mergeTaskStep acc t) = mapLookup k acc := by
  unfold mergeTaskStep
  cases hl : mapLookup t.id acc with
  | none => simp [hl, mapLookup_insert_ne _ _ h]
  | some e =>
      by_cases ha : timeAfter t.createdAt e.createdAt
      · simp [hl, ha, mapLookup_insert_ne _ _ h]
      · simp [hl, ha]

theorem mergeTaskStep_lookup_self (acc : List (String × Task)) (t : Task) :
    mapLookup t.id (mergeTaskStep acc t)
      = some (mergeWinner (mapLookup t.id acc) t) := by
  unfold mergeTaskStep mergeWinner
  cases hl : mapLookup t.id acc with
  | none => simp [hl, mapLookup_insert_self]
  | some e =>
      by_cases ha : timeAfter t.createdAt e.createdAt
      · simp [hl, ha, mapLookup_insert_self]
      · simp [hl, ha]

theorem mergeFold_lookup_not_mem {k : String} {rem : List Task}
    (h : k ∉ rem.map Task.id) (acc : List (String × Task)) :
    mapLookup k (rem.foldl mergeTaskStep acc) = mapLookup k acc := by
  induction rem generalizing acc with
  | nil => rfl
  | cons w rest ih =>
      simp only [List.map_cons, List.mem_cons] at h
      push_neg at h
      rw [List.foldl_cons, ih h.2, mergeTaskStep_lookup_ne _ _ h.1]

theorem mergeFold_lookup_mem {rem : List Task} {t : Task}
    (hnd : (rem.map Task.id).Nodup) (ht : t ∈ rem) (acc : List (String × Task)) :
    mapLookup t.id (rem.foldl mergeTaskStep acc)
      = some (mergeWinner (mapLookup t.id acc) t) := by
  induction rem generalizing acc with
  | nil => simp at ht
  | cons w rest ih =>
      simp only [List.map_cons, List.nodup_cons] at hnd
      rcases List.mem_cons.mp ht with h | h
      · subst h
        rw [List.foldl_cons, mergeFold_lookup_not_mem hnd.1, mergeTaskStep_lookup_self]
      · have hne : t.id ≠ w.id := by
          intro he
          exact hnd.1 (he ▸ List.mem_map.mpr ⟨t, h, rfl⟩)
        rw [List.foldl_cons, ih hnd.2 h, mergeTaskStep_lookup_ne _ _ hne]

theorem MapWF.mergeStep {acc : List (String × Task)}
    (hwf : MapWF Task.id acc) (t : Task) :
    MapWF Task.id (mergeTaskStep acc t) := by
  unfold mergeTaskStep
  cases hl : mapLookup t.id acc with
  | none => exact hwf.insert t
  | some e =>
      by_cases ha : timeAfter t.createdAt e.createdAt
      · simp only [hl, ha, if_true]
        exact hwf.insert t
      · simpa [hl, ha] using hwf

theorem MapWF.mergeFold {rem : List Task} {acc : List (String × Task)}
    (hwf : MapWF Task.id acc) :
    MapWF Task.id (rem.foldl mergeTaskStep acc) := by
  induction rem generalizing acc with
  | nil => exact hwf
  | cons w rest ih => exact ih (hwf.mergeStep w)

theorem buildMap_eq_append {α : Type} {key : α → String} {l : List α}
    (hnd : (l.map key).Nodup) :
    ∀ acc : List (String × α), (∀ v ∈ l, key v ∉ mapKeys acc) →
      buildMap key l acc = acc ++ l.map (fun v => (key v, v)) := by
  induction l with
  | nil => intro acc _; simp [buildMap]
  | cons w rest ih =>
      intro acc hdisj
      simp only [List.map_cons, List.nodup_cons] at hnd
      rw [buildMap_cons, mapInsert_of_not_mem_keys w (hdisj w (by simp)),
        ih hnd.2]
      · simp
      · intro v hv
        have h1 : key v ∉ mapKeys acc := hdisj v (List.mem_cons_of_mem _ hv)
        have h2 : ¬key v = key w := by
          intro he
          exact hnd.1 (he ▸ List.mem_map.mpr ⟨v, hv, rfl⟩)
        simp only [mapKeys, List.map_append, List.mem_append, List.map_cons,
          List.map_nil, List.mem_singleton, not_or]
        exact ⟨h1, h2⟩

theorem buildMap_reinsert_id {α : Type} {key : α → String} {l : List α}
    {m : List (String × α)} (h : ∀ v ∈ l, mapLookup (key v) m = some v) :
    buildMap key l m = m := by
  induction l with
  | nil => rfl
  | cons w rest ih =>
      rw [buildMap_cons, mapInsert_of_lookup_self (h w (by simp))]
      exact ih fun v hv => h v (List.mem_cons_of_mem _ hv)

theorem mergeFold_id {l : List Task} {m : List (String × Task)}
    (h : ∀ t ∈ l, mapLookup t.id m = some t) :
    l.foldl mergeTaskStep m = m := by
  induction l with
  | nil => rfl
  | cons w rest ih =>
      have hstep : mergeTaskStep m w = m := by
        unfold mergeTaskStep
        rw [h w (by simp)]
        simp [timeAfter]
      rw [List.foldl_cons, hstep]
      exact ih fun t ht => h t (List.mem_cons_of_mem _ ht)

theorem detectConflict_iff (a b : Int) :
    detectConflict a b = true ↔ b < a ∧ a ≠ b := by
  unfold detectConflict timeAfter timeEqual
  by_cases h : b < a
  · simp [h]
  · simp [h]

/-- On the success path, `pullFromGitHubCmd` returns exactly the message
built on main.go lines 1120-1124. -/
theorem pull_success_inv (loc : Config) (env : PullEnv) (rc : Config)
    (hsucc : (pullFromGitHubCmd loc env).success = true)
    (hrc : (pullFromGitHubCmd loc env).remoteConfig = some rc) :
    pullFromGitHubCmd loc env
      = ⟨true, "", some rc, detectConflict loc.lastUpdate rc.lastUpdate⟩ := by
  unfold pullFromGitHubCmd at *
  cases hg : env.ghInstalled <;> simp [hg] at hsucc hrc ⊢
  cases hr : env.repoExists <;> simp [hr] at hsucc hrc ⊢
  cases hm : env.mkdirOk <;> simp [hm] at hsucc hrc ⊢
  cases hc : env.cloneOk <;> simp [hc] at hsucc hrc ⊢
  cases hd : env.readOk <;> simp [hd] at hsucc hrc ⊢
  cases hp : env.parseResult with
  | none => simp [hp] at hsucc
  | some rc0 =>
      simp [hp] at hrc ⊢
      exact ⟨hrc, by rw [hrc]⟩

/-- If any fallible step of the pull fails, the resulting message is a
failure message. -/
theorem pull_failure_msg (loc : Config) (env : PullEnv)
    (hfail : env.ghInstalled = false ∨ env.repoExists = false ∨
      env.mkdirOk = false ∨ env.cloneOk = false ∨ env.readOk = false ∨
      env.parseResult = none) :
    (pullFromGitHubCmd loc env).success = false := by
  unfold pullFromGitHubCmd
  rcases hfail with h | h | h | h | h | h <;>
    cases hg : env.ghInstalled <;>
    cases hr : env.repoExists <;>
    cases hm : env.mkdirOk <;>
    cases hc : env.cloneOk <;>
    cases hd : env.readOk <;>
    simp_all

/-- The `pullResultMsg` branch of `model.Update` does not touch the local
document, the persisted file, or the retained remote snapshot when the
message reports failure. -/
theorem updatePullResult_failure (msg : PullResultMsg) (st : AppState)
    (h : msg.success = false) :
    (updatePullResult msg st).config = st.config ∧
    (updatePullResult msg st).savedLog = st.savedLog ∧
    (updatePullResult msg st).remoteConfig = st.remoteConfig := by
  unfold updatePullResult
  by_cases hm : st.mode = ViewMode.firstRunView <;> simp [hm, h]

/-- A sample local document for concrete witnesses. -/
def sampleConfig : Config :=
  { categories := [⟨"work", "Work"⟩, ⟨"personal", "Personal"⟩]
    tasks := [⟨"1", "write report", "work", 1, false, 10, 0, ""⟩,
              ⟨"2", "buy milk", "personal", 2, false, 20, 0, ""⟩]
    lastUpdate := 100
    version := "1.3.0"
    gitHubSetupComplete := true }

/-- A sample remote document, older than `sampleConfig`. -/
def sampleRemote : Config :=
  { categories := [⟨"work", "Werk"⟩]
    tasks := [⟨"1", "write the report", "work", 0, true, 30, 40, "done early"⟩,
              ⟨"3", "call home", "personal", 1, false, 25, 0, ""⟩]
    lastUpdate := 50
    version := "1.2.0"
    gitHubSetupComplete := false }

/-- `sampleRemote` with a `lastUpdate` later than `sampleConfig`. -/
def sampleRemoteNewer : Config := { sampleRemote with lastUpdate := 200 }

/-- A state with a pull in flight from the task list view. -/
def sampleState : AppState :=
  { config := sampleConfig
    mode := ViewMode.listView
    prevMode := ViewMode.listView
    statusMsg := ""
    configChanged := true
    syncInProgress := false
    pullInProgress := true
    remoteConfig := none
    firstRunStep := FirstRunStep.welcomeStep
    firstRunError := ""
    savedLog := [] }

/-- A quiescent state in the task list view. -/
def idleState : AppState := { sampleState with pullInProgress := false }

/-- The state after pressing `G` in the task list view. -/
def syncPromptState : AppState := (mainViewSyncKey "G" idleState).1

/-- A state showing the conflict-resolution prompt with a retained remote
snapshot. -/
def conflictState : AppState :=
  { sampleState with mode := ViewMode.pullConfirmView, pullInProgress := false,
                     remoteConfig := some sampleRemote }

/-- An environment in which every external pull step succeeds and the
remote parses to `sampleRemote`. -/
def sampleEnvOK : PullEnv :=
  { ghInstalled := true, repoExists := true, mkdirOk := true,
    cloneOk := true, cloneErrMsg := "", readOk := true, readErrMsg := "",
    parseResult := some sampleRemote, parseErrMsg := "" }

/-- `sampleEnvOK` but the remote parses to the newer document. -/
def sampleEnvNewer : PullEnv := { sampleEnvOK with parseResult := some sampleRemoteNewer }

/-- `sampleEnvOK` but the clone step fails. -/
def sampleEnvCloneFail : PullEnv :=
  { sampleEnvOK with cloneOk := false, cloneErrMsg := "exit status 1" }

/-- C1: for every local document and successfully fetched remote document,
`pullFromGitHubCmd` flags a conflict exactly when the local `lastUpdate` is
strictly after the remote one and the two are unequal; when the conflict is
flagged, the `pullResultMsg` branch of `model.Update` leaves the local
document unchanged, writes nothing to disk, and retains the remote snapshot
in `remoteConfig` awaiting resolution. -/
theorem pull_conflict_exact_and_local_frozen
    (loc rc : Config) (env : PullEnv) (st : AppState)
    (hsucc : (pullFromGitHubCmd loc env).success = true)
    (hrc : (pullFromGitHubCmd loc env).remoteConfig = some rc)
    (hmode : st.mode ≠ ViewMode.firstRunView) :
    ((pullFromGitHubCmd loc env).hasConflict = true ↔
        rc.lastUpdate < loc.lastUpdate ∧ loc.lastUpdate ≠ rc.lastUpdate) ∧
    ((pullFromGitHubCmd loc env).hasConflict = true →
        (updatePullResult (pullFromGitHubCmd loc env) st).config = st.config ∧
        (updatePullResult (pullFromGitHubCmd loc env) st).savedLog = st.savedLog ∧
        (updatePullResult (pullFromGitHubCmd loc env) st).remoteConfig = some rc ∧
        (updatePullResult (pullFromGitHubCmd loc env) st).mode
          = ViewMode.pullConfirmView) := by
  have hinv := pull_success_inv loc env rc hsucc hrc
  rw [hinv]
  constructor
  · exact detectConflict_iff _ _
  · intro hc
    unfold updatePullResult
    simp only at hc
    simp [hmode, hc]

/-- Witness for C1 at `sampleConfig` (local stamp 100) against
`sampleRemote` (remote stamp 50): the conflict is flagged and the handler
freezes the local document. -/
theorem pull_conflict_exact_and_local_frozen_witness :
    ((pullFromGitHubCmd sampleConfig sampleEnvOK).hasConflict = true ↔
        sampleRemote.lastUpdate < sampleConfig.lastUpdate ∧
          sampleConfig.lastUpdate ≠ sampleRemote.lastUpdate) ∧
    ((pullFromGitHubCmd sampleConfig sampleEnvOK).hasConflict = true →
        (updatePullResult (pullFromGitHubCmd sampleConfig sampleEnvOK)
            sampleState).config = sampleState.config ∧
        (updatePullResult (pullFromGitHubCmd sampleConfig sampleEnvOK)
            sampleState).savedLog = sampleState.savedLog ∧
        (updatePullResult (pullFromGitHubCmd sampleConfig sampleEnvOK)
            sampleState).remoteConfig = some sampleRemote ∧
        (updatePullResult (pullFromGitHubCmd sampleConfig sampleEnvOK)
            sampleState).mode = ViewMode.pullConfirmView) :=
  pull_conflict_exact_and_local_frozen sampleConfig sampleRemote sampleEnvOK
    sampleState (by decide) (by decide) (by decide)

/-- C2: when the local `lastUpdate` is not after the remote one, the pull
flags no conflict and the handler adopts the remote document wholesale
(every field, `lastUpdate` included) and clears the unsynced-changes flag. -/
theorem pull_no_conflict_adopts_remote
    (loc rc : Config) (env : PullEnv) (st : AppState)
    (hle : loc.lastUpdate ≤ rc.lastUpdate)
    (hsucc : (pullFromGitHubCmd loc env).success = true)
    (hrc : (pullFromGitHubCmd loc env).remoteConfig = some rc)
    (hmode : st.mode ≠ ViewMode.firstRunView) :
    (pullFromGitHubCmd loc env).hasConflict = false ∧
    (updatePullResult (pullFromGitHubCmd loc env) st).config = rc ∧
    (updatePullResult (pullFromGitHubCmd loc env) st).configChanged = false := by
  have hinv := pull_success_inv loc env rc hsucc hrc
  rw [hinv]
  have hcf : detectConflict loc.lastUpdate rc.lastUpdate = false := by
    by_contra h
    rw [Bool.not_eq_false] at h
    rcases (detectConflict_iff _ _).mp h with ⟨hlt, _⟩
    omega
  refine ⟨hcf, ?_⟩
  unfold updatePullResult
  simp [hmode, hcf]

/-- Witness for C2: pulling `sampleRemoteNewer` (stamp 200) over
`sampleConfig` (stamp 100) adopts the remote document outright. -/
theorem pull_no_conflict_adopts_remote_witness :
    (pullFromGitHubCmd sampleConfig sampleEnvNewer).hasConflict = false ∧
    (updatePullResult (pullFromGitHubCmd sampleConfig sampleEnvNewer)
        sampleState).config = sampleRemoteNewer ∧
    (updatePullResult (pullFromGitHubCmd sampleConfig sampleEnvNewer)
        sampleState).configChanged = false :=
  pull_no_conflict_adopts_remote sampleConfig sampleRemoteNewer sampleEnvNewer
    sampleState (by decide) (by decide) (by decide) (by decide)

/-- C7: whichever external step fails (missing gh tool, absent remote repo,
temp-dir failure, clone failure, unreadable remote file, or unparsable
remote content), the pull returns a failure message and the handler leaves
the local document, the persisted file, and the retained snapshot all
unchanged. -/
theorem pull_failure_leaves_local_untouched
    (loc : Config) (env : PullEnv) (st : AppState)
    (hfail : env.ghInstalled = false ∨ env.repoExists = false ∨
      env.mkdirOk = false ∨ env.cloneOk = false ∨ env.readOk = false ∨
      env.parseResult = none) :
    (pullFromGitHubCmd loc env).success = false ∧
    (updatePullResult (pullFromGitHubCmd loc env) st).config = st.config ∧
    (updatePullResult (pullFromGitHubCmd loc env) st).savedLog = st.savedLog ∧
    (updatePullResult (pullFromGitHubCmd loc env) st).remoteConfig
      = st.remoteConfig := by
  have hf := pull_failure_msg loc env hfail
  have hu := updatePullResult_failure _ st hf
  exact ⟨hf, hu.1, hu.2.1, hu.2.2⟩

/-- Witness for C7: a failing clone leaves `sampleState` entirely intact. -/
theorem pull_failure_leaves_local_untouched_witness :
    (pullFromGitHubCmd sampleConfig sampleEnvCloneFail).success = false ∧
    (updatePullResult (pullFromGitHubCmd sampleConfig sampleEnvCloneFail)
        sampleState).config = sampleState.config ∧
    (updatePullResult (pullFromGitHubCmd sampleConfig sampleEnvCloneFail)
        sampleState).savedLog = sampleState.savedLog ∧
    (updatePullResult (pullFromGitHubCmd sampleConfig sampleEnvCloneFail)
        sampleState).remoteConfig = sampleState.remoteConfig :=
  pull_failure_leaves_local_untouched sampleConfig sampleEnvCloneFail
    sampleState (by decide)

/-- C10: `mergeConfigs` builds its result with a `Config` literal that never
sets `GitHubSetupComplete`, so the merged document always carries the zero
value `false`, whatever the inputs held. -/
theorem merge_always_resets_setup_flag (now : Int) (loc rem : Config) :
    (mergeConfigs now loc rem).gitHubSetupComplete = false := rfl

/-- C5 (refuting evaluation): neither the `g` branch of the main-view key
switch nor the `y` branch of `handleSyncConfirm` checks the in-progress
flags, so a second request while an operation is in flight launches a
second transport command instead of being rejected. -/
theorem second_sync_request_starts_second_transport :
    ((mainViewSyncKey "g" idleState).2 = [TransportCmd.startPull] ∧
     (mainViewSyncKey "g" idleState).1.pullInProgress = true ∧
     (mainViewSyncKey "g" idleState).1.mode = ViewMode.listView ∧
     (mainViewSyncKey "g" (mainViewSyncKey "g" idleState).1).2
       = [TransportCmd.startPull]) ∧
    ((handleSyncConfirm "y" syncPromptState).2 = [TransportCmd.startSync] ∧
     (handleSyncConfirm "y" syncPromptState).1.syncInProgress = true ∧
     (handleSyncConfirm "y" syncPromptState).1.mode = ViewMode.syncConfirmView ∧
     (handleSyncConfirm "y" (handleSyncConfirm "y" syncPromptState).1).2
       = [TransportCmd.startSync]) := by decide

/-- A task that is not done: its `CompletedAt` is the zero time. -/
def zeroCompletedTask : Task := ⟨"42", "water plants", "personal", 2, false, 50, 0, ""⟩

/-- C9 (refuting evaluation): `omitempty` never omits a struct-kind field,
so `completed_at` is serialized for every task — the zero time included —
while the string field `notes` is correctly omitted when empty. -/
theorem completed_at_key_never_omitted :
    (∀ t : Task, "completed_at" ∈ taskMarshalKeys t) ∧
    zeroCompletedTask.completedAt = 0 ∧
    "completed_at" ∈ taskMarshalKeys zeroCompletedTask ∧
    "notes" ∉ taskMarshalKeys zeroCompletedTask := by
  refine ⟨?_, by decide, by decide, by decide⟩
  intro t
  simp [taskMarshalKeys, marshalKeys, taskGoFields, GoValue.isEmptyValue]

/-- C6: every one of the four resolution transitions (keep-local L,
take-remote R, merge M, cancel esc) clears the retained remote snapshot,
and once it is cleared any further resolution key leaves the local document
and the persisted file unchanged. -/
theorem resolution_clears_snapshot_and_second_is_noop
    (st st2 : AppState) (rc : Config) (nm ns nm2 ns2 : Int)
    (hpend : st.remoteConfig = some rc) (hdone : st2.remoteConfig = none) :
    ((handlePullConfirm "l" nm ns st).remoteConfig = none ∧
     (handlePullConfirm "L" nm ns st).remoteConfig = none ∧
     (handlePullConfirm "r" nm ns st).remoteConfig = none ∧
     (handlePullConfirm "R" nm ns st).remoteConfig = none ∧
     (handlePullConfirm "m" nm ns st).remoteConfig = none ∧
     (handlePullConfirm "M" nm ns st).remoteConfig = none ∧
     (handlePullConfirm "esc" nm ns st).remoteConfig = none) ∧
    (∀ key : String,
        (handlePullConfirm key nm2 ns2 st2).config = st2.config ∧
        (handlePullConfirm key nm2 ns2 st2).savedLog = st2.savedLog) := by
  constructor
  · refine ⟨?_, ?_, ?_, ?_, ?_, ?_, ?_⟩ <;>
      simp [handlePullConfirm, hpend, saveConfigAndMarkChanged, saveConfigStep]
  · intro key
    unfold handlePullConfirm
    by_cases h1 : key = "l" ∨ key = "L"
    · simp [h1]
    · by_cases h2 : key = "r" ∨ key = "R"
      · simp [h1, h2, hdone]
      · by_cases h3 : key = "m" ∨ key = "M"
        · simp [h1, h2, h3, hdone]
        · by_cases h4 : key = "esc"
          · simp [h1, h2, h3, h4]
          · simp [h1, h2, h3, h4]

/-- Witness for C6 at `conflictState` (snapshot `sampleRemote` pending) and
`sampleState` (snapshot already cleared). -/
theorem resolution_clears_snapshot_witness :
    ((handlePullConfirm "l" 7 8 conflictState).remoteConfig = none ∧
     (handlePullConfirm "L" 7 8 conflictState).remoteConfig = none ∧
     (handlePullConfirm "r" 7 8 conflictState).remoteConfig = none ∧
     (handlePullConfirm "R" 7 8 conflictState).remoteConfig = none ∧
     (handlePullConfirm "m" 7 8 conflictState).remoteConfig = none ∧
     (handlePullConfirm "M" 7 8 conflictState).remoteConfig = none ∧
     (handlePullConfirm "esc" 7 8 conflictState).remoteConfig = none) ∧
    (∀ key : String,
        (handlePullConfirm key 9 10 sampleState).config = sampleState.config ∧
        (handlePullConfirm key 9 10 sampleState).savedLog
          = sampleState.savedLog) :=
  resolution_clears_snapshot_and_second_is_noop conflictState sampleState
    sampleRemote 7 8 9 10 rfl rfl

/-- Membership in the merged task list is exactly a lookup hit in the
task map `mergeConfigs` builds. -/
theorem mergeConfigs_tasks_mem_iff (now : Int) (loc rem : Config) (t : Task) :
    t ∈ (mergeConfigs now loc rem).tasks ↔
      mapLookup t.id (mergeTaskMap loc.tasks rem.tasks) = some t := by
  have hwf : MapWF Task.id (mergeTaskMap loc.tasks rem.tasks) :=
    MapWF.mergeFold (MapWF.buildMap (MapWF.nil _))
  exact mem_snd_iff_mapLookup hwf

/-- C3: when a task ID occurs in both documents, the record with the
strictly later `createdAt` appears in the merged document in its entirety
and the other record is absent; on an exact `createdAt` tie the local
(first-processed) record is the one retained. -/
theorem merge_task_collision_later_createdAt_wins
    (now : Int) (loc rem : Config) (tl tr : Task)
    (hndl : (loc.tasks.map Task.id).Nodup)
    (hndr : (rem.tasks.map Task.id).Nodup)
    (hl : tl ∈ loc.tasks) (hr : tr ∈ rem.tasks) (hid : tl.id = tr.id) :
    (tl.createdAt < tr.createdAt →
        tr ∈ (mergeConfigs now loc rem).tasks ∧
          tl ∉ (mergeConfigs now loc rem).tasks) ∧
    (tr.createdAt < tl.createdAt →
        tl ∈ (mergeConfigs now loc rem).tasks ∧
          tr ∉ (mergeConfigs now loc rem).tasks) ∧
    (tl.createdAt = tr.createdAt →
        tl ∈ (mergeConfigs now loc rem).tasks) := by
  have hM1 : mapLookup tr.id (mergeTaskMap loc.tasks rem.tasks)
      = some (mergeWinner (mapLookup tr.id (buildMap Task.id loc.tasks [])) tr) :=
    mergeFold_lookup_mem hndr hr _
  have hM0 : mapLookup tr.id (buildMap Task.id loc.tasks []) = some tl := by
    rw [← hid]
    exact buildMap_lookup_mem hndl hl []
  rw [hM0] at hM1
  simp only [mergeWinner] at hM1
  refine ⟨?_, ?_, ?_⟩
  · intro hlt
    have hafter : timeAfter tr.createdAt tl.createdAt = true := by
      simp [timeAfter, hlt]
    rw [hafter] at hM1
    simp only [if_true] at hM1
    constructor
    · exact (mergeConfigs_tasks_mem_iff now loc rem tr).mpr hM1
    · intro habs
      have h2 := (mergeConfigs_tasks_mem_iff now loc rem tl).mp habs
      rw [hid, hM1] at h2
      have : tr = tl := by injection h2
      rw [this] at hlt
      omega
  · intro hlt
    have hafter : timeAfter tr.createdAt tl.createdAt = false := by
      simp only [timeAfter, decide_eq_false_iff_not]
      omega
    rw [hafter] at hM1
    simp only [Bool.false_eq_true, if_false] at hM1
    constructor
    · refine (mergeConfigs_tasks_mem_iff now loc rem tl).mpr ?_
      rw [hid]
      exact hM1
    · intro habs
      have h2 := (mergeConfigs_tasks_mem_iff now loc rem tr).mp habs
      rw [hM1] at h2
      have : tl = tr := by injection h2
      rw [this] at hlt
      omega
  · intro heq
    have hafter : timeAfter tr.createdAt tl.createdAt = false := by
      simp only [timeAfter, decide_eq_false_iff_not]
      omega
    rw [hafter] at hM1
    simp only [Bool.false_eq_true, if_false] at hM1
    refine (mergeConfigs_tasks_mem_iff now loc rem tl).mpr ?_
    rw [hid]
    exact hM1

/-- The version of task `1` held locally in `sampleConfig`. -/
def tlSample : Task := ⟨"1", "write report", "work", 1, false, 10, 0, ""⟩

/-- The version of task `1` held remotely in `sampleRemote`; its
`createdAt` (30) is later than that of `tlSample` (10). -/
def trSample : Task := ⟨"1", "write the report", "work", 0, true, 30, 40, "done early"⟩

/-- Witness for C3 at the colliding task `1` of `sampleConfig` and
`sampleRemote`. -/
theorem merge_task_collision_witness :
    (tlSample.createdAt < trSample.createdAt →
        trSample ∈ (mergeConfigs 5 sampleConfig sampleRemote).tasks ∧
          tlSample ∉ (mergeConfigs 5 sampleConfig sampleRemote).tasks) ∧
    (trSample.createdAt < tlSample.createdAt →
        tlSample ∈ (mergeConfigs 5 sampleConfig sampleRemote).tasks ∧
          trSample ∉ (mergeConfigs 5 sampleConfig sampleRemote).tasks) ∧
    (tlSample.createdAt = trSample.createdAt →
        tlSample ∈ (mergeConfigs 5 sampleConfig sampleRemote).tasks) :=
  merge_task_collision_later_createdAt_wins 5 sampleConfig sampleRemote
    tlSample trSample (by decide) (by decide) (by decide) (by decide) rfl

/-- C8: a task whose ID occurs in exactly one of the two documents is
carried into the merged document unchanged, field for field. -/
theorem merge_task_unique_side_preserved
    (now : Int) (loc rem : Config)
    (hndl : (loc.tasks.map Task.id).Nodup)
    (hndr : (rem.tasks.map Task.id).Nodup) :
    (∀ t ∈ loc.tasks, t.id ∉ rem.tasks.map Task.id →
        t ∈ (mergeConfigs now loc rem).tasks) ∧
    (∀ t ∈ rem.tasks, t.id ∉ loc.tasks.map Task.id →
        t ∈ (mergeConfigs now loc rem).tasks) := by
  constructor
  · intro t ht hno
    rw [mergeConfigs_tasks_mem_iff]
    unfold mergeTaskMap
    rw [mergeFold_lookup_not_mem hno]
    exact buildMap_lookup_mem hndl ht []
  · intro t ht hno
    rw [mergeConfigs_tasks_mem_iff]
    unfold mergeTaskMap
    rw [mergeFold_lookup_mem hndr ht, buildMap_lookup_not_mem hno]
    simp [mapLookup, mergeWinner]

/-- Witness for C8 at `sampleConfig` (task `2` local-only) and
`sampleRemote` (task `3` remote-only). -/
theorem merge_task_unique_side_preserved_witness :
    (∀ t ∈ sampleConfig.tasks, t.id ∉ sampleRemote.tasks.map Task.id →
        t ∈ (mergeConfigs 5 sampleConfig sampleRemote).tasks) ∧
    (∀ t ∈ sampleRemote.tasks, t.id ∉ sampleConfig.tasks.map Task.id →
        t ∈ (mergeConfigs 5 sampleConfig sampleRemote).tasks) :=
  merge_task_unique_side_preserved 5 sampleConfig sampleRemote
    (by decide) (by decide)

theorem map_snd_pair {α : Type} (key : α → String) (l : List α) :
    List.map (Prod.snd ∘ fun v => (key v, v)) l = l := by
  induction l with
  | nil => rfl
  | cons w rest ih => simp [ih]

/-- C4 counterexample: merging a document with itself is NOT the identity
modulo `lastUpdate` alone — with `now` chosen equal to the document's own
stamp, the only field that changes is `GitHubSetupComplete`, which the
merge resets from `true` to `false`. -/
theorem merge_self_not_identity_on_setup_flag :
    sampleConfig.gitHubSetupComplete = true ∧
    (mergeConfigs sampleConfig.lastUpdate sampleConfig sampleConfig).lastUpdate
      = sampleConfig.lastUpdate ∧
    (mergeConfigs sampleConfig.lastUpdate sampleConfig sampleConfig).gitHubSetupComplete
      ≠ sampleConfig.gitHubSetupComplete := by decide

/-- C4 (amended): for a document with unique category and task IDs, merging
it with itself reproduces it exactly — same category list, same task list,
same version — except that `lastUpdate` is restamped to the merge time and
`GitHubSetupComplete` is reset to `false`. -/
theorem merge_self_identity_modulo_stamp_and_flag (now : Int) (D : Config)
    (hndc : (D.categories.map Category.id).Nodup)
    (hndt : (D.tasks.map Task.id).Nodup) :
    mergeConfigs now D D
      = { D with lastUpdate := now, gitHubSetupComplete := false } := by
  have hM0c : buildMap Category.id D.categories []
      = D.categories.map fun c => (c.id, c) := by
    simpa using buildMap_eq_append hndc [] (by intro v hv; simp [mapKeys])
  have hlookc : ∀ c ∈ D.categories,
      mapLookup c.id (buildMap Category.id D.categories []) = some c :=
    fun c hc => buildMap_lookup_mem hndc hc []
  have hcats : mergeCategoryMap D.categories D.categories
      = D.categories.map fun c => (c.id, c) := by
    unfold mergeCategoryMap
    rw [buildMap_reinsert_id hlookc, hM0c]
  have hM0t : buildMap Task.id D.tasks []
      = D.tasks.map fun t => (t.id, t) := by
    simpa using buildMap_eq_append hndt [] (by intro v hv; simp [mapKeys])
  have hlookt : ∀ t ∈ D.tasks,
      mapLookup t.id (buildMap Task.id D.tasks []) = some t :=
    fun t ht => buildMap_lookup_mem hndt ht []
  have htasks : mergeTaskMap D.tasks D.tasks
      = D.tasks.map fun t => (t.id, t) := by
    unfold mergeTaskMap
    rw [mergeFold_id hlookt, hM0t]
  unfold mergeConfigs
  rw [hcats, htasks]
  simp only [List.map_map, map_snd_pair]

/-- Witness for the amended C4 at `sampleConfig`. -/
theorem merge_self_identity_witness :
    mergeConfigs 77 sampleConfig sampleConfig
      = { sampleConfig with lastUpdate := 77, gitHubSetupComplete := false } :=
  merge_self_identity_modulo_stamp_and_flag 77 sampleConfig
    (by decide) (by decide)

end Todobi
